import Mathlib

/-!
Verification of the secure-signer core: the slashing-protection database,
the typed signing-root pipeline, key generation and import, and the HTTP
route table, embedded shallowly from `src/src/routes.rs` and, for the
components the repository exposes only through their tests and callers,
modelled from the specification document.
-/

namespace SecureSigner

/-! ## SHA-256 (FIPS 180-4) over byte lists, arithmetic in Nat mod 2^32 -/

/-- 2^32, the modulus of 32-bit word arithmetic. -/
def w32 : Nat := 4294967296

/-- Right rotation of a 32-bit word. -/
def rotr (n x : Nat) : Nat := ((x >>> n) ||| (x <<< (32 - n))) % w32

/-- Ch(x,y,z) = (x AND y) XOR (NOT x AND z), with 32-bit complement. -/
def ch (x y z : Nat) : Nat := (x &&& y) ^^^ ((x ^^^ 4294967295) &&& z)

/-- Maj(x,y,z). -/
def maj (x y z : Nat) : Nat := (x &&& y) ^^^ (x &&& z) ^^^ (y &&& z)

/-- Big sigma 0. -/
def bsig0 (x : Nat) : Nat := rotr 2 x ^^^ rotr 13 x ^^^ rotr 22 x

/-- Big sigma 1. -/
def bsig1 (x : Nat) : Nat := rotr 6 x ^^^ rotr 11 x ^^^ rotr 25 x

/-- Small sigma 0. -/
def ssig0 (x : Nat) : Nat := rotr 7 x ^^^ rotr 18 x ^^^ (x >>> 3)

/-- Small sigma 1. -/
def ssig1 (x : Nat) : Nat := rotr 17 x ^^^ rotr 19 x ^^^ (x >>> 10)

/-- The 64 SHA-256 round constants, written in decimal. -/
def shaK : List Nat :=
  [1116352408, 1899447441, 3049323471, 3921009573, 961987163, 1508970993,
   2453635748, 2870763221, 3624381080, 310598401, 607225278, 1426881987,
   1925078388, 2162078206, 2614888103, 3248222580, 3835390401, 4022224774,
   264347078, 604807628, 770255983, 1249150122, 1555081692, 1996064986,
   2554220882, 2821834349, 2952996808, 3210313671, 3336571891, 3584528711,
   113926993, 338241895, 666307205, 773529912, 1294757372, 1396182291,
   1695183700, 1986661051, 2177026350, 2456956037, 2730485921, 2820302411,
   3259730800, 3345764771, 3516065817, 3600352804, 4094571909, 275423344,
   430227734, 506948616, 659060556, 883997877, 958139571, 1322822218,
   1537002063, 1747873779, 1955562222, 2024104815, 2227730452, 2361852424,
   2428436474, 2756734187, 3204031479, 3329325298]

/-- Eight-word SHA-256 working state. -/
structure Sha8 where
  a : Nat
  b : Nat
  c : Nat
  d : Nat
  e : Nat
  f : Nat
  g : Nat
  h : Nat
deriving Repr, DecidableEq

/-- The SHA-256 initial hash value, written in decimal. -/
def shaInit : Sha8 :=
  ⟨1779033703, 3144134277, 1013904242, 2773480762,
   1359893119, 2600822924, 528734635, 1541459225⟩

/-- One SHA-256 round with round constant kt and schedule word wt. -/
def shaRound (st : Sha8) (kt wt : Nat) : Sha8 :=
  let t1 := (st.h + bsig1 st.e + ch st.e st.f st.g + kt + wt) % w32
  let t2 := (bsig0 st.a + maj st.a st.b st.c) % w32
  ⟨(t1 + t2) % w32, st.a, st.b, st.c, (st.d + t1) % w32, st.e, st.f, st.g⟩

/-- Fold the 64 rounds over paired constant and schedule lists. -/
def shaRounds : Sha8 → List Nat → List Nat → Sha8
  | st, kt :: ks, wt :: ws => shaRounds (shaRound st kt wt) ks ws
  | st, _, _ => st

/-- Componentwise addition of states mod 2^32. -/
def addState (x y : Sha8) : Sha8 :=
  ⟨(x.a + y.a) % w32, (x.b + y.b) % w32, (x.c + y.c) % w32, (x.d + y.d) % w32,
   (x.e + y.e) % w32, (x.f + y.f) % w32, (x.g + y.g) % w32, (x.h + y.h) % w32⟩

/-- Extend the reversed message schedule by n further words. -/
def extendSchedule : Nat → List Nat → List Nat
  | 0, ws => ws
  | n + 1, ws =>
      let nw := (ssig1 (ws.getD 1 0) + ws.getD 6 0 + ssig0 (ws.getD 14 0) + ws.getD 15 0) % w32
      extendSchedule n (nw :: ws)

/-- The 64-word message schedule of a 16-word block. -/
def schedule (block : List Nat) : List Nat :=
  (extendSchedule 48 block.reverse).reverse

/-- Compress one 16-word block into the state. -/
def compressBlock (st : Sha8) (block : List Nat) : Sha8 :=
  addState st (shaRounds st shaK (schedule block))

/-- Process n 16-word blocks front to back. -/
def processBlocks : Sha8 → Nat → List Nat → Sha8
  | st, 0, _ => st
  | st, n + 1, ws => processBlocks (compressBlock st (ws.take 16)) n (ws.drop 16)

/-- Big-endian 32-bit words from a byte list. -/
def bytesToWords : List Nat → List Nat
  | a :: b :: c :: d :: rest => (((a * 256 + b) * 256 + c) * 256 + d) :: bytesToWords rest
  | _ => []

/-- The four big-endian bytes of a 32-bit word. -/
def wordToBytes (x : Nat) : List Nat :=
  [x / 2 ^ 24 % 256, x / 2 ^ 16 % 256, x / 2 ^ 8 % 256, x % 256]

/-- The eight big-endian bytes of a 64-bit length field. -/
def u64be (x : Nat) : List Nat :=
  [x / 2 ^ 56 % 256, x / 2 ^ 48 % 256, x / 2 ^ 40 % 256, x / 2 ^ 32 % 256,
   x / 2 ^ 24 % 256, x / 2 ^ 16 % 256, x / 2 ^ 8 % 256, x % 256]

/-- SHA-256 padding: 0x80, zeros, then the 64-bit big-endian bit length. -/
def padMessage (msg : List Nat) : List Nat :=
  let len := msg.length
  let zeros := (64 - (len + 9) % 64) % 64
  msg ++ 128 :: List.replicate zeros 0 ++ u64be (len * 8)

/-- Modelled from the spec: SHA-256 of a byte list, the hash underlying the
signing-root computation (the hashing library itself is outside src). -/
def sha256 (msg : List Nat) : List Nat :=
  let ws := bytesToWords (padMessage msg)
  let st := processBlocks shaInit (ws.length / 16) ws
  wordToBytes st.a ++ wordToBytes st.b ++ wordToBytes st.c ++ wordToBytes st.d ++
  wordToBytes st.e ++ wordToBytes st.f ++ wordToBytes st.g ++ wordToBytes st.h

/-- Sanity anchor: the FIPS 180-4 digest of the empty message. -/
theorem sha256_empty :
    sha256 [] =
      [0xe3, 0xb0, 0xc4, 0x42, 0x98, 0xfc, 0x1c, 0x14, 0x9a, 0xfb, 0xf4, 0xc8, 0x99, 0x6f,
       0xb9, 0x24, 0x27, 0xae, 0x41, 0xe4, 0x64, 0x9b, 0x93, 0x4c, 0xa4, 0x95, 0x99, 0x1b,
       0x78, 0x52, 0xb8, 0x55] := by decide

/-! ## SSZ hash-tree-roots and the signing-root builder (spec section 4.2) -/

/-- A 32-byte chunk of zeros. -/
def zero32 : List Nat := List.replicate 32 0

/-- Hash of the concatenation of two 32-byte chunks. -/
def hashPair (a b : List Nat) : List Nat := sha256 (a ++ b)

/-- Little-endian 8-byte encoding of a u64. -/
def u64le (x : Nat) : List Nat :=
  [x % 256, x / 2 ^ 8 % 256, x / 2 ^ 16 % 256, x / 2 ^ 24 % 256,
   x / 2 ^ 32 % 256, x / 2 ^ 40 % 256, x / 2 ^ 48 % 256, x / 2 ^ 56 % 256]

/-- SSZ hash-tree-root of a u64: its little-endian bytes zero-padded to a chunk. -/
def u64Chunk (x : Nat) : List Nat := u64le x ++ List.replicate 24 0

/-- Modelled from the spec: SSZ hash-tree-root of a BeaconBlockHeader, five
field chunks merkleized over eight leaves (the SSZ library is outside src). -/
def hash_tree_root_block_header (slot proposer_index : Nat)
    (parent_root state_root body_root : List Nat) : List Nat :=
  hashPair
    (hashPair (hashPair (u64Chunk slot) (u64Chunk proposer_index))
              (hashPair parent_root state_root))
    (hashPair (hashPair body_root zero32) (hashPair zero32 zero32))

/-- Modelled from the spec: consensus-spec compute_fork_data_root, the
hash-tree-root of the two-field ForkData container. -/
def compute_fork_data_root (version gvr : List Nat) : List Nat :=
  hashPair (version ++ List.replicate 28 0) gvr

/-- Modelled from the spec: consensus-spec compute_domain, the 4-byte domain
type followed by the first 28 bytes of the fork data root. -/
def compute_domain (domainType version gvr : List Nat) : List Nat :=
  domainType ++ (compute_fork_data_root version gvr).take 28

/-- Modelled from the spec: consensus-spec compute_signing_root, the
hash-tree-root of the two-field SigningData container. -/
def compute_signing_root (objectRoot domain : List Nat) : List Nat :=
  hashPair objectRoot domain

/-- A consensus fork: two 4-byte versions and the epoch of transition. -/
structure Fork where
  previous_version : List Nat
  current_version : List Nat
  epoch : Nat
deriving Repr, DecidableEq

/-- Fork context carried by every sign request. -/
structure ForkInfo where
  fork : Fork
  genesis_validators_root : List Nat
deriving Repr, DecidableEq

/-- Slots per epoch of the consensus spec. -/
def SLOTS_PER_EPOCH : Nat := 32

/-- The epoch containing a slot. -/
def compute_epoch_at_slot (slot : Nat) : Nat := slot / SLOTS_PER_EPOCH

/-- Modelled from the spec: epoch-based fork-version selection, previous
version strictly before the fork epoch and current version from it on. -/
def fork_version_at_epoch (f : Fork) (epoch : Nat) : List Nat :=
  if epoch < f.epoch then f.previous_version else f.current_version

/-- Domain type of beacon block proposals. -/
def DOMAIN_BEACON_PROPOSER : List Nat := [0, 0, 0, 0]

/-- Domain type of randao reveals. -/
def DOMAIN_RANDAO : List Nat := [2, 0, 0, 0]

/-- Modelled from the spec: the server-computed signing root of a BLOCK_V2
request, fork version chosen by the epoch of the block slot (the
SigningRootBuilder is outside src). -/
def block_v2_signing_root (fi : ForkInfo) (slot proposer_index : Nat)
    (parent_root state_root body_root : List Nat) : List Nat :=
  compute_signing_root
    (hash_tree_root_block_header slot proposer_index parent_root state_root body_root)
    (compute_domain DOMAIN_BEACON_PROPOSER
      (fork_version_at_epoch fi.fork (compute_epoch_at_slot slot))
      fi.genesis_validators_root)

/-- Modelled from the spec: the server-computed signing root of a
RANDAO_REVEAL request, object root the SSZ root of the epoch scalar. -/
def randao_signing_root (fi : ForkInfo) (epoch : Nat) : List Nat :=
  compute_signing_root (u64Chunk epoch)
    (compute_domain DOMAIN_RANDAO (fork_version_at_epoch fi.fork epoch)
      fi.genesis_validators_root)

/-! ## Slashing-protection database (spec section 4.3) -/

/-- A committed block record: slot and signing root. -/
structure SignedBlock where
  slot : Nat
  signing_root : List Nat
deriving Repr, DecidableEq

/-- A committed attestation record: source and target epochs and signing root. -/
structure SignedAttestation where
  source_epoch : Nat
  target_epoch : Nat
  signing_root : List Nat
deriving Repr, DecidableEq

/-- The per-key slashing-protection record. -/
structure SlashingProtectionData where
  pubkey : String
  signed_blocks : List SignedBlock
  signed_attestations : List SignedAttestation
deriving Repr, DecidableEq

/-- The empty record for a freshly created key. -/
def SlashingProtectionData.empty (pk : String) : SlashingProtectionData :=
  ⟨pk, [], []⟩

/-- The maximum slot over a list of block records, none when empty. -/
def maxSlot : List SignedBlock → Option Nat
  | [] => none
  | b :: bs =>
      match maxSlot bs with
      | none => some b.slot
      | some m => some (max b.slot m)

/-- The maximum source epoch over a list of attestation records. -/
def maxSource : List SignedAttestation → Option Nat
  | [] => none
  | a :: as_ =>
      match maxSource as_ with
      | none => some a.source_epoch
      | some m => some (max a.source_epoch m)

/-- The maximum target epoch over a list of attestation records. -/
def maxTarget : List SignedAttestation → Option Nat
  | [] => none
  | a :: as_ =>
      match maxTarget as_ with
      | none => some a.target_epoch
      | some m => some (max a.target_epoch m)

/-- Modelled from the spec: try_sign_block of the SlashProtectionDB (the
slash_protection module is outside src): fail when the slot does not exceed
every committed slot, otherwise append and commit. -/
def try_sign_block (db : SlashingProtectionData) (slot : Nat) (root : List Nat) :
    Except String SlashingProtectionData :=
  match maxSlot db.signed_blocks with
  | some m =>
      if slot ≤ m then .error "non-increasing slot"
      else .ok { db with signed_blocks := db.signed_blocks ++ [⟨slot, root⟩] }
  | none => .ok { db with signed_blocks := db.signed_blocks ++ [⟨slot, root⟩] }

/-- Whether the pair (src, tgt) surrounds or is surrounded by a prior record. -/
def surroundViolation (as_ : List SignedAttestation) (src tgt : Nat) : Bool :=
  as_.any fun a =>
    (decide (src < a.source_epoch) && decide (a.target_epoch < tgt)) ||
    (decide (a.source_epoch < src) && decide (tgt < a.target_epoch))

/-- Modelled from the spec: try_sign_attestation of the SlashProtectionDB (the
slash_protection module is outside src): reject invalid source/target,
non-increasing target, decreasing source, and surround violations, otherwise
append and commit. -/
def try_sign_attestation (db : SlashingProtectionData) (src tgt : Nat)
    (root : List Nat) : Except String SlashingProtectionData :=
  if tgt ≤ src then .error "invalid source/target"
  else
    match maxTarget db.signed_attestations with
    | some mt =>
        if tgt ≤ mt then .error "non-increasing target"
        else
          match maxSource db.signed_attestations with
          | some ms =>
              if src < ms then .error "decreasing source"
              else if surroundViolation db.signed_attestations src tgt then
                .error "surround vote"
              else
                .ok { db with
                        signed_attestations := db.signed_attestations ++ [⟨src, tgt, root⟩] }
          | none =>
              .ok { db with
                      signed_attestations := db.signed_attestations ++ [⟨src, tgt, root⟩] }
    | none =>
        match maxSource db.signed_attestations with
        | some ms =>
            if src < ms then .error "decreasing source"
            else if surroundViolation db.signed_attestations src tgt then
              .error "surround vote"
            else
              .ok { db with
                      signed_attestations := db.signed_attestations ++ [⟨src, tgt, root⟩] }
        | none =>
            .ok { db with
                    signed_attestations := db.signed_attestations ++ [⟨src, tgt, root⟩] }

/-- HTTP status of a slashing-checked signing attempt: 200 on commit, 412 on
a slashable rejection. -/
def statusOf {α : Type} : Except String α → Nat
  | .ok _ => 200
  | .error _ => 412

/-- The state after a block request: the new record on success, unchanged on
rejection. -/
def applyBlock (db : SlashingProtectionData) (slot : Nat) (root : List Nat) :
    SlashingProtectionData :=
  match try_sign_block db slot root with
  | .ok db2 => db2
  | .error _ => db

/-- The state after an attestation request: the new record on success,
unchanged on rejection. -/
def applyAttestation (db : SlashingProtectionData) (src tgt : Nat) (root : List Nat) :
    SlashingProtectionData :=
  match try_sign_attestation db src tgt root with
  | .ok db2 => db2
  | .error _ => db

/-! ## Signing pipeline (spec section 4.4) -/

/-- A BLOCK_V2 request body: fork context, block header fields, and the
client-supplied signing root. -/
structure BlockV2Request where
  fork_info : ForkInfo
  slot : Nat
  proposer_index : Nat
  parent_root : List Nat
  state_root : List Nat
  body_root : List Nat
  signingRoot : List Nat
deriving Repr, DecidableEq

/-- A RANDAO_REVEAL request body. -/
structure RandaoRevealRequest where
  fork_info : ForkInfo
  epoch : Nat
  signingRoot : List Nat
deriving Repr, DecidableEq

/-- Modelled from the spec: secure_sign on a BLOCK_V2 request (the
route_handlers module is outside src): recompute the signing root, require
it to equal the client-supplied one, run the block slashing check, and
answer 200 on commit, 412 on a slashable rejection, 400 on mismatch. -/
def secure_sign_block_v2 (db : SlashingProtectionData) (req : BlockV2Request) :
    Nat × SlashingProtectionData :=
  let server_root := block_v2_signing_root req.fork_info req.slot req.proposer_index
    req.parent_root req.state_root req.body_root
  if req.signingRoot = server_root then
    match try_sign_block db req.slot server_root with
    | .ok db2 => (200, db2)
    | .error _ => (412, db)
  else (400, db)

/-- Modelled from the spec: secure_sign on a RANDAO_REVEAL request: recompute
the signing root, require equality with the client-supplied one, no slashing
check for this kind. -/
def secure_sign_randao (db : SlashingProtectionData) (req : RandaoRevealRequest) :
    Nat × SlashingProtectionData :=
  let server_root := randao_signing_root req.fork_info req.epoch
  if req.signingRoot = server_root then (200, db) else (400, db)

/-! ## Key generation and import (spec sections 4.1 and 4.5) -/

/-- The enclave's persistent state: generated or imported key lists and the
per-key slashing-protection records. -/
structure EnclaveState where
  bls_keys : List String
  eth_keys : List String
  slash_dbs : List (String × SlashingProtectionData)
deriving Repr, DecidableEq

/-- The empty enclave state. -/
def EnclaveState.empty : EnclaveState := ⟨[], [], []⟩

/-- Modelled from the spec: gen_bls of the KeyStore (the keys module is
outside src): persist a new BLS key under its public hex and initialize its
slashing-protection record with empty histories. -/
def gen_bls (st : EnclaveState) (new_pub : String) : EnclaveState × String :=
  ({ st with
      bls_keys := new_pub :: st.bls_keys,
      slash_dbs := (new_pub, SlashingProtectionData.empty new_pub) :: st.slash_dbs },
   new_pub)

/-- The BLS public keys held by the enclave. -/
def list_bls (st : EnclaveState) : List String := st.bls_keys

/-- Read the slashing-protection record persisted for a public key. -/
def readSlashDb (st : EnclaveState) (pk : String) : Option SlashingProtectionData :=
  (st.slash_dbs.find? (fun p => p.1 == pk)).map Prod.snd

/-- Response entry of the key-import route. -/
structure KeyImportResponseInner where
  status : String
  message : String
deriving Repr, DecidableEq

/-- Modelled from the spec: the outcomes of the cryptographic steps of the
KeyImport algorithm (ECIES, scrypt KDF, AES and BLS derivation live outside
src), abstracted as oracle results consumed in the spec's order. -/
structure ImportSteps where
  eth_secret : Option Nat
  password : Option String
  bls_secret : Option Nat
  derive_pub : Nat → String
  keystore_pubkey : Option String

/-- Commit a successfully imported key: persist the secret under its public
hex and seed the slashing-protection record from the interchange data when
provided, empty otherwise. -/
def importCommit (st : EnclaveState) (pub : String)
    (sp : Option SlashingProtectionData) : EnclaveState × KeyImportResponseInner :=
  ({ st with
      bls_keys := pub :: st.bls_keys,
      slash_dbs := (pub, (sp.getD (SlashingProtectionData.empty pub))) :: st.slash_dbs },
   ⟨"imported", pub⟩)

/-- Modelled from the spec: the KeyImport algorithm of section 4.5 (the
route_handlers module is outside src): resolve the enclave SECP256K1 secret,
decrypt the password, decrypt the keystore, derive and verify the BLS public
key, then seed slashing protection and persist; any failure answers status
error and persists nothing. -/
def bls_key_import_service (st : EnclaveState) (o : ImportSteps)
    (sp : Option SlashingProtectionData) : EnclaveState × KeyImportResponseInner :=
  match o.eth_secret with
  | none => (st, ⟨"error", "unknown encrypting key"⟩)
  | some _ =>
      match o.password with
      | none => (st, ⟨"error", "failed to decrypt password"⟩)
      | some _ =>
          match o.bls_secret with
          | none => (st, ⟨"error", "failed to decrypt keystore"⟩)
          | some s =>
              match o.keystore_pubkey with
              | some kp =>
                  if kp = o.derive_pub s then importCommit st (o.derive_pub s) sp
                  else (st, ⟨"error", "derived pubkey mismatch"⟩)
              | none => importCommit st (o.derive_pub s) sp

/-! ## HTTP route table, embedded from src/src/routes.rs -/

/-- An HTTP method, as discriminated by the warp method filters. -/
inductive Method
  | GET
  | POST
deriving Repr, DecidableEq

/-- A path segment filter: a literal warp::path component or a warp
path::param capture. -/
inductive Seg
  | lit (s : String)
  | param
deriving Repr, DecidableEq

/-- The body filter attached to a route. -/
inductive BodyKind
  | none
  | bytes
  | json
deriving Repr, DecidableEq

/-- A route: the method filter, the chain of path segment filters, and the
body filter. -/
structure Route where
  method : Method
  segs : List Seg
  body : BodyKind
deriving Repr, DecidableEq

/-- Embedded from bls_sign_route in src/src/routes.rs: POST, path api, v1,
eth2, sign, then a path parameter, with the raw request body bytes. -/
def bls_sign_route : Route :=
  ⟨.POST, [.lit "api", .lit "v1", .lit "eth2", .lit "sign", .param], .bytes⟩

/-- Embedded from upcheck_route in src/src/routes.rs: GET, path upcheck,
no body. -/
def upcheck_route : Route := ⟨.GET, [.lit "upcheck"], .none⟩

/-- Embedded from upcheck_route's handler, warp::any().map(warp::reply):
every request that reaches it is answered 200. -/
def upcheck_handler (_req : Unit) : Nat := 200

/-- Embedded from bls_key_import_route in src/src/routes.rs: POST, path eth,
v1, keystores, with a JSON KeyImportRequest body. -/
def bls_key_import_route : Route :=
  ⟨.POST, [.lit "eth", .lit "v1", .lit "keystores"], .json⟩

/-- Embedded from list_imported_bls_keys_route in src/src/routes.rs: GET on
the same eth, v1, keystores path, no body. -/
def list_imported_bls_keys_route : Route :=
  ⟨.GET, [.lit "eth", .lit "v1", .lit "keystores"], .none⟩

/-- Embedded from bls_key_gen_route in src/src/routes.rs. -/
def bls_key_gen_route : Route :=
  ⟨.POST, [.lit "eth", .lit "v1", .lit "keygen", .lit "bls"], .none⟩

/-- Embedded from list_generated_bls_keys_route in src/src/routes.rs. -/
def list_generated_bls_keys_route : Route :=
  ⟨.GET, [.lit "eth", .lit "v1", .lit "keygen", .lit "bls"], .none⟩

/-- Embedded from eth_key_gen_route in src/src/routes.rs. -/
def eth_key_gen_route : Route :=
  ⟨.POST, [.lit "eth", .lit "v1", .lit "keygen", .lit "secp256k1"], .none⟩

/-- Embedded from list_generated_eth_keys_route in src/src/routes.rs. -/
def list_generated_eth_keys_route : Route :=
  ⟨.GET, [.lit "eth", .lit "v1", .lit "keygen", .lit "secp256k1"], .none⟩

/-- Embedded from epid_remote_attestation_route in src/src/routes.rs. -/
def epid_remote_attestation_route : Route :=
  ⟨.POST, [.lit "eth", .lit "v1", .lit "remote-attestation", .param], .none⟩

/-- Match a path against segment filters, collecting parameter captures in
order; none when any literal disagrees or the lengths differ. -/
def segsMatch : List Seg → List String → Option (List String)
  | [], [] => some []
  | .lit s :: ss, p :: ps => if p = s then segsMatch ss ps else none
  | .param :: ss, p :: ps => (segsMatch ss ps).map (fun cs => p :: cs)
  | _, _ => none

/-- Match a request method and path against a route. -/
def matchRoute (r : Route) (m : Method) (path : List String) : Option (List String) :=
  if m = r.method then segsMatch r.segs path else none

/-! ## Keymanager list response schema (spec section 6) -/

/-- A minimal JSON value tree for response bodies. -/
inductive Json
  | str (s : String)
  | bool (b : Bool)
  | arr (xs : List Json)
  | obj (fields : List (String × Json))

/-- Look a field up in a JSON object. -/
def Json.getField : Json → String → Option Json
  | .obj fs, k => (fs.find? (fun p => p.1 == k)).map Prod.snd
  | _, _ => Option.none

/-- Modelled from the spec: one entry of the keymanager list response body,
carrying the hex public key under validating_pubkey together with
derivation_path and readonly (the serde response types are outside src). -/
def listEntryJson (pk : String) : Json :=
  .obj [("validating_pubkey", .str pk), ("derivation_path", .str ""), ("readonly", .bool true)]

/-- Modelled from the spec: the keymanager list response body, a data array
of entries. -/
def listResponseJson (keys : List String) : Json :=
  .obj [("data", .arr (keys.map listEntryJson))]

/-! ## Helper lemmas about the history maxima -/

/-- maxSlot is none exactly on the empty history, and a some value bounds
every entry and is attained by one. -/
theorem maxSlot_spec (bs : List SignedBlock) :
    (maxSlot bs = none → bs = []) ∧
    ∀ m, maxSlot bs = some m → (∀ b ∈ bs, b.slot ≤ m) ∧ ∃ b ∈ bs, b.slot = m := by
  induction bs with
  | nil =>
      refine ⟨fun _ => rfl, fun m h => ?_⟩
      rw [maxSlot] at h
      exact absurd h (by simp)
  | cons c cs ih =>
      constructor
      · intro h
        rw [maxSlot] at h
        cases hcs : maxSlot cs <;> rw [hcs] at h <;> simp at h
      · intro m h
        rw [maxSlot] at h
        cases hcs : maxSlot cs with
        | none =>
            rw [hcs] at h
            injection h with h
            have hnil := ih.1 hcs
            subst hnil
            refine ⟨fun b hb => ?_, c, by simp, h⟩
            rcases List.mem_singleton.mp hb with rfl
            exact Nat.le_of_eq h
        | some mc =>
            rw [hcs] at h
            injection h with h
            obtain ⟨hle, b0, hb0, hb0eq⟩ := ih.2 mc hcs
            constructor
            · intro b hb
              rcases List.mem_cons.mp hb with rfl | hb
              · exact h ▸ Nat.le_max_left _ _
              · exact Nat.le_trans (hle b hb) (h ▸ Nat.le_max_right _ _)
            · rcases Nat.le_total mc c.slot with hc | hc
              · exact ⟨c, List.mem_cons_self _ _, by rw [← h, Nat.max_eq_left hc]⟩
              · exact ⟨b0, List.mem_cons_of_mem _ hb0, by rw [hb0eq, ← h, Nat.max_eq_right hc]⟩

/-- maxSource is none exactly on the empty history, and a some value bounds
every entry and is attained by one. -/
theorem maxSource_spec (as_ : List SignedAttestation) :
    (maxSource as_ = none → as_ = []) ∧
    ∀ m, maxSource as_ = some m →
      (∀ a ∈ as_, a.source_epoch ≤ m) ∧ ∃ a ∈ as_, a.source_epoch = m := by
  induction as_ with
  | nil =>
      refine ⟨fun _ => rfl, fun m h => ?_⟩
      rw [maxSource] at h
      exact absurd h (by simp)
  | cons c cs ih =>
      constructor
      · intro h
        rw [maxSource] at h
        cases hcs : maxSource cs <;> rw [hcs] at h <;> simp at h
      · intro m h
        rw [maxSource] at h
        cases hcs : maxSource cs with
        | none =>
            rw [hcs] at h
            injection h with h
            have hnil := ih.1 hcs
            subst hnil
            refine ⟨fun a ha => ?_, c, by simp, h⟩
            rcases List.mem_singleton.mp ha with rfl
            exact Nat.le_of_eq h
        | some mc =>
            rw [hcs] at h
            injection h with h
            obtain ⟨hle, a0, ha0, ha0eq⟩ := ih.2 mc hcs
            constructor
            · intro a ha
              rcases List.mem_cons.mp ha with rfl | ha
              · exact h ▸ Nat.le_max_left _ _
              · exact Nat.le_trans (hle a ha) (h ▸ Nat.le_max_right _ _)
            · rcases Nat.le_total mc c.source_epoch with hc | hc
              · exact ⟨c, List.mem_cons_self _ _, by rw [← h, Nat.max_eq_left hc]⟩
              · exact ⟨a0, List.mem_cons_of_mem _ ha0, by rw [ha0eq, ← h, Nat.max_eq_right hc]⟩

/-- maxTarget is none exactly on the empty history, and a some value bounds
every entry and is attained by one. -/
theorem maxTarget_spec (as_ : List SignedAttestation) :
    (maxTarget as_ = none → as_ = []) ∧
    ∀ m, maxTarget as_ = some m →
      (∀ a ∈ as_, a.target_epoch ≤ m) ∧ ∃ a ∈ as_, a.target_epoch = m := by
  induction as_ with
  | nil =>
      refine ⟨fun _ => rfl, fun m h => ?_⟩
      rw [maxTarget] at h
      exact absurd h (by simp)
  | cons c cs ih =>
      constructor
      · intro h
        rw [maxTarget] at h
        cases hcs : maxTarget cs <;> rw [hcs] at h <;> simp at h
      · intro m h
        rw [maxTarget] at h
        cases hcs : maxTarget cs with
        | none =>
            rw [hcs] at h
            injection h with h
            have hnil := ih.1 hcs
            subst hnil
            refine ⟨fun a ha => ?_, c, by simp, h⟩
            rcases List.mem_singleton.mp ha with rfl
            exact Nat.le_of_eq h
        | some mc =>
            rw [hcs] at h
            injection h with h
            obtain ⟨hle, a0, ha0, ha0eq⟩ := ih.2 mc hcs
            constructor
            · intro a ha
              rcases List.mem_cons.mp ha with rfl | ha
              · exact h ▸ Nat.le_max_left _ _
              · exact Nat.le_trans (hle a ha) (h ▸ Nat.le_max_right _ _)
            · rcases Nat.le_total mc c.target_epoch with hc | hc
              · exact ⟨c, List.mem_cons_self _ _, by rw [← h, Nat.max_eq_left hc]⟩
              · exact ⟨a0, List.mem_cons_of_mem _ ha0, by rw [ha0eq, ← h, Nat.max_eq_right hc]⟩

/-- surroundViolation holds exactly when some prior record surrounds or is
surrounded by the new pair. -/
theorem surroundViolation_eq_true (as_ : List SignedAttestation) (src tgt : Nat) :
    surroundViolation as_ src tgt = true ↔
      ∃ a ∈ as_, (src < a.source_epoch ∧ a.target_epoch < tgt) ∨
                 (a.source_epoch < src ∧ tgt < a.target_epoch) := by
  simp [surroundViolation, List.any_eq_true]

/-- A committed attestation implies valid source/target, a target above every
prior target, a source at or above every prior source, no surround violation,
and the appended history. -/
theorem try_sign_attestation_ok_inv (db : SlashingProtectionData) (src tgt : Nat)
    (root : List Nat) (db2 : SlashingProtectionData)
    (h : try_sign_attestation db src tgt root = .ok db2) :
    src < tgt ∧ (∀ a ∈ db.signed_attestations, a.target_epoch < tgt) ∧
    (∀ a ∈ db.signed_attestations, a.source_epoch ≤ src) ∧
    surroundViolation db.signed_attestations src tgt = false ∧
    db2 = { db with signed_attestations := db.signed_attestations ++ [⟨src, tgt, root⟩] } := by
  by_cases h1 : tgt ≤ src
  · simp only [try_sign_attestation, if_pos h1] at h
    exact Except.noConfusion h
  · have hlt : src < tgt := Nat.lt_of_not_le h1
    cases hmt : maxTarget db.signed_attestations with
    | none =>
        have hnil := (maxTarget_spec _).1 hmt
        cases hms : maxSource db.signed_attestations with
        | none =>
            simp only [try_sign_attestation, if_neg h1, hmt, hms] at h
            injection h with h
            refine ⟨hlt, ?_, ?_, ?_, h.symm⟩
            · rw [hnil]; intro a ha; exact absurd ha (by simp)
            · rw [hnil]; intro a ha; exact absurd ha (by simp)
            · rw [hnil]; rfl
        | some ms =>
            rw [hnil] at hms
            exact absurd hms (by simp [maxSource])
    | some mt =>
        by_cases h2 : tgt ≤ mt
        · simp only [try_sign_attestation, if_neg h1, hmt, if_pos h2] at h
          exact Except.noConfusion h
        · cases hms : maxSource db.signed_attestations with
          | none =>
              rw [(maxSource_spec _).1 hms] at hmt
              exact absurd hmt (by simp [maxTarget])
          | some ms =>
              by_cases h3 : src < ms
              · simp only [try_sign_attestation, if_neg h1, hmt, if_neg h2, hms,
                  if_pos h3] at h
                exact Except.noConfusion h
              · by_cases h4 : surroundViolation db.signed_attestations src tgt = true
                · simp only [try_sign_attestation, if_neg h1, hmt, if_neg h2, hms,
                    if_neg h3, if_pos h4] at h
                  exact Except.noConfusion h
                · simp only [try_sign_attestation, if_neg h1, hmt, if_neg h2, hms,
                    if_neg h3, if_neg h4] at h
                  injection h with h
                  have hmtb := ((maxTarget_spec _).2 mt hmt).1
                  have hmsb := ((maxSource_spec _).2 ms hms).1
                  refine ⟨hlt, ?_, ?_, Bool.eq_false_iff.mpr h4, h.symm⟩
                  · intro a ha
                    exact Nat.lt_of_le_of_lt (hmtb a ha) (Nat.lt_of_not_le h2)
                  · intro a ha
                    exact Nat.le_trans (hmsb a ha) (Nat.le_of_not_lt h3)

/-- Valid source/target, a target above every prior target, a source at or
above every prior source, and no surround violation commit the appended
history. -/
theorem try_sign_attestation_ok_of (db : SlashingProtectionData) (src tgt : Nat)
    (root : List Nat)
    (h1 : src < tgt)
    (h2 : ∀ a ∈ db.signed_attestations, a.target_epoch < tgt)
    (h3 : ∀ a ∈ db.signed_attestations, a.source_epoch ≤ src)
    (h4 : surroundViolation db.signed_attestations src tgt = false) :
    try_sign_attestation db src tgt root =
      .ok { db with signed_attestations := db.signed_attestations ++ [⟨src, tgt, root⟩] } := by
  have hns : ¬ tgt ≤ src := Nat.not_le.mpr h1
  have hnsv : ¬ surroundViolation db.signed_attestations src tgt = true := by
    rw [h4]; simp
  cases hmt : maxTarget db.signed_attestations with
  | none =>
      cases hms : maxSource db.signed_attestations with
      | none => simp only [try_sign_attestation, if_neg hns, hmt, hms]
      | some ms =>
          obtain ⟨a0, ha0, ha0eq⟩ := ((maxSource_spec _).2 ms hms).2
          have hnlt : ¬ src < ms := Nat.not_lt.mpr (ha0eq ▸ h3 a0 ha0)
          simp only [try_sign_attestation, if_neg hns, hmt, hms, if_neg hnlt, if_neg hnsv]
  | some mt =>
      obtain ⟨a1, ha1, ha1eq⟩ := ((maxTarget_spec _).2 mt hmt).2
      have hnt : ¬ tgt ≤ mt := Nat.not_le.mpr (ha1eq ▸ h2 a1 ha1)
      cases hms : maxSource db.signed_attestations with
      | none =>
          rw [(maxSource_spec _).1 hms] at hmt
          exact absurd hmt (by simp [maxTarget])
      | some ms =>
          obtain ⟨a0, ha0, ha0eq⟩ := ((maxSource_spec _).2 ms hms).2
          have hnlt : ¬ src < ms := Nat.not_lt.mpr (ha0eq ▸ h3 a0 ha0)
          simp only [try_sign_attestation, if_neg hns, hmt, if_neg hnt, hms,
            if_neg hnlt, if_neg hnsv]

/-! ## Claim theorems -/

/-- C1: a BLOCK or BLOCK_V2 request is committed only when its slot strictly
exceeds every previously committed slot, the commit appends the new record so
strict slot monotonicity is preserved, and a slot at or below the committed
maximum is rejected as slashable with the history unchanged. -/
theorem block_slot_strictly_increasing (db db2 : SlashingProtectionData)
    (slot : Nat) (root : List Nat) :
    (try_sign_block db slot root = .ok db2 →
       (∀ b ∈ db.signed_blocks, b.slot < slot) ∧
       db2.signed_blocks = db.signed_blocks ++ [⟨slot, root⟩] ∧
       (List.Pairwise (fun b1 b2 => b1.slot < b2.slot) db.signed_blocks →
          List.Pairwise (fun b1 b2 => b1.slot < b2.slot) db2.signed_blocks)) ∧
    ((∃ b ∈ db.signed_blocks, slot ≤ b.slot) →
       try_sign_block db slot root = .error "non-increasing slot" ∧
       applyBlock db slot root = db) := by
  constructor
  · intro hok
    cases hms : maxSlot db.signed_blocks with
    | none =>
        simp only [try_sign_block, hms] at hok
        injection hok with hok
        have hnil := (maxSlot_spec db.signed_blocks).1 hms
        subst hok
        refine ⟨fun b hb => absurd hb (by rw [hnil]; simp), rfl, fun _ => ?_⟩
        rw [hnil]
        simp
    | some m =>
        simp only [try_sign_block, hms] at hok
        by_cases hle : slot ≤ m
        · rw [if_pos hle] at hok
          exact absurd hok (by simp)
        · rw [if_neg hle] at hok
          injection hok with hok
          subst hok
          have hbound := ((maxSlot_spec db.signed_blocks).2 m hms).1
          have hall : ∀ b ∈ db.signed_blocks, b.slot < slot :=
            fun b hb => Nat.lt_of_le_of_lt (hbound b hb) (Nat.lt_of_not_le hle)
          refine ⟨hall, rfl, fun hpw => ?_⟩
          rw [List.pairwise_append]
          exact ⟨hpw, List.pairwise_singleton _ _, by
            intro b1 hb1 b2 hb2
            rcases List.mem_singleton.mp hb2 with rfl
            exact hall b1 hb1⟩
  · rintro ⟨b, hb, hle⟩
    cases hms : maxSlot db.signed_blocks with
    | none =>
        have hnil := (maxSlot_spec db.signed_blocks).1 hms
        rw [hnil] at hb
        exact absurd hb (by simp)
    | some m =>
        have hbound := ((maxSlot_spec db.signed_blocks).2 m hms).1
        have hslotm : slot ≤ m := Nat.le_trans hle (hbound b hb)
        have herr : try_sign_block db slot root = .error "non-increasing slot" := by
          simp only [try_sign_block, hms]
          rw [if_pos hslotm]
        exact ⟨herr, by rw [applyBlock, herr]⟩

/-- C1 witness: with slot 10 committed, a request at slot 9 is rejected as
slashable and the history is unchanged. -/
theorem block_slot_strictly_increasing_witness :
    try_sign_block ⟨"k", [⟨10, []⟩], []⟩ 9 [] = .error "non-increasing slot" ∧
    applyBlock ⟨"k", [⟨10, []⟩], []⟩ 9 [] = ⟨"k", [⟨10, []⟩], []⟩ :=
  (block_slot_strictly_increasing ⟨"k", [⟨10, []⟩], []⟩ ⟨"k", [], []⟩ 9 []).2
    ⟨⟨10, []⟩, by simp, by decide⟩

/-- The attestation history after committing (src 10, tgt 11) on a fresh key,
as the attestation route test does first. -/
def attDb1 : SlashingProtectionData :=
  applyAttestation (SlashingProtectionData.empty "k") 10 11 zero32

/-- C2: an attestation is rejected as slashable when its target does not
exceed the committed maximum target, or its source is below the committed
maximum source, or it surrounds or is surrounded by a prior record; one whose
source equals the committed maximum source and whose target exceeds the
committed maximum target is accepted; and after committing (10, 11) the
requests (0, 12) and (10, 11) answer 412 while (10, 12) and then (11, 13)
answer 200. -/
theorem attestation_slashing_rules (db : SlashingProtectionData) (src tgt : Nat)
    (root : List Nat) :
    ((∃ a ∈ db.signed_attestations, tgt ≤ a.target_epoch) →
       statusOf (try_sign_attestation db src tgt root) = 412) ∧
    ((∃ a ∈ db.signed_attestations, src < a.source_epoch) →
       statusOf (try_sign_attestation db src tgt root) = 412) ∧
    ((∃ a ∈ db.signed_attestations,
        (src < a.source_epoch ∧ a.target_epoch < tgt) ∨
        (a.source_epoch < src ∧ tgt < a.target_epoch)) →
       statusOf (try_sign_attestation db src tgt root) = 412) ∧
    ((∀ a ∈ db.signed_attestations, a.source_epoch < a.target_epoch) →
     maxSource db.signed_attestations = some src →
     (∀ a ∈ db.signed_attestations, a.target_epoch < tgt) →
       statusOf (try_sign_attestation db src tgt root) = 200) ∧
    (statusOf (try_sign_attestation attDb1 0 12 zero32) = 412 ∧
     statusOf (try_sign_attestation attDb1 10 11 zero32) = 412 ∧
     statusOf (try_sign_attestation attDb1 10 12 zero32) = 200 ∧
     statusOf (try_sign_attestation (applyAttestation attDb1 10 12 zero32) 11 13 zero32) = 200) := by
  refine ⟨?_, ?_, ?_, ?_, by decide⟩
  · rintro ⟨a, ha, hta⟩
    cases hres : try_sign_attestation db src tgt root with
    | error e => rfl
    | ok db2 =>
        obtain ⟨-, h2, -, -, -⟩ := try_sign_attestation_ok_inv db src tgt root db2 hres
        exact absurd (h2 a ha) (Nat.not_lt.mpr hta)
  · rintro ⟨a, ha, hsa⟩
    cases hres : try_sign_attestation db src tgt root with
    | error e => rfl
    | ok db2 =>
        obtain ⟨-, -, h3, -, -⟩ := try_sign_attestation_ok_inv db src tgt root db2 hres
        exact absurd (h3 a ha) (Nat.not_le.mpr hsa)
  · rintro ⟨a, ha, hsv⟩
    cases hres : try_sign_attestation db src tgt root with
    | error e => rfl
    | ok db2 =>
        obtain ⟨-, -, -, h4, -⟩ := try_sign_attestation_ok_inv db src tgt root db2 hres
        have htrue : surroundViolation db.signed_attestations src tgt = true :=
          (surroundViolation_eq_true _ _ _).mpr ⟨a, ha, hsv⟩
        rw [h4] at htrue
        exact Bool.noConfusion htrue
  · intro hinv hms htgt
    obtain ⟨hbound, a0, ha0, ha0eq⟩ := (maxSource_spec _).2 src hms
    have h1 : src < tgt := by
      have := hinv a0 ha0
      have := htgt a0 ha0
      omega
    have h4 : surroundViolation db.signed_attestations src tgt = false := by
      rw [Bool.eq_false_iff]
      rw [Ne, surroundViolation_eq_true]
      rintro ⟨a, ha, ⟨hlt, -⟩ | ⟨-, hgt⟩⟩
      · exact absurd (hbound a ha) (Nat.not_le.mpr hlt)
      · exact absurd (htgt a ha) (Nat.lt_asymm hgt)
    rw [try_sign_attestation_ok_of db src tgt root h1 htgt hbound h4]
    rfl

/-- C2 witness: with (10, 11) committed, the request (0, 12) is rejected as
slashable. -/
theorem attestation_slashing_rules_witness :
    statusOf (try_sign_attestation ⟨"k", [], [⟨10, 11, []⟩]⟩ 0 12 []) = 412 :=
  (attestation_slashing_rules ⟨"k", [], [⟨10, 11, []⟩]⟩ 0 12 []).2.1
    ⟨⟨10, 11, []⟩, by simp, by decide⟩

/-- A slashing-checked request: a block by slot or an attestation by source
and target epochs, each with its signing root. -/
inductive SignRequest
  | block (slot : Nat) (root : List Nat)
  | attestation (src tgt : Nat) (root : List Nat)
deriving Repr, DecidableEq

/-- One signing request against the database: 200 with the committed record
on success, 412 with the database unchanged on a slashable rejection. -/
def stepRequest (db : SlashingProtectionData) : SignRequest → Nat × SlashingProtectionData
  | .block slot root =>
      match try_sign_block db slot root with
      | .ok db2 => (200, db2)
      | .error _ => (412, db)
  | .attestation src tgt root =>
      match try_sign_attestation db src tgt root with
      | .ok db2 => (200, db2)
      | .error _ => (412, db)

/-- Run a request sequence, collecting the HTTP statuses and threading the
database. -/
def runRequests (db : SlashingProtectionData) : List SignRequest → List Nat × SlashingProtectionData
  | [] => ([], db)
  | r :: rs =>
      let res := stepRequest db r
      let rest := runRequests res.2 rs
      (res.1 :: rest.1, rest.2)

/-- Modelled from the spec: the slashing-protection record seeded by the
EIP-3076 interchange data of dummy_slash_protection_data (outside src), the
highest-watermark entries last_slot 81952, last_source 2290, last_target 3008
installed verbatim. -/
def seededDb : SlashingProtectionData :=
  ⟨"k", [⟨81952, zero32⟩], [⟨2290, 3008, zero32⟩]⟩

/-- C3: on a key imported with the EIP-3076 seed of watermarks last_slot
81952, last_source 2290, last_target 3008, the requests attestation
(2289, 3108), (2290, 3008), (2290, 3009) and block 81952, 81951, 81953 answer
412, 412, 200, 412, 412, 200 in that order. -/
theorem import_seeded_slashing_scenario :
    (runRequests seededDb
      [.attestation 2289 3108 zero32, .attestation 2290 3008 zero32,
       .attestation 2290 3009 zero32, .block 81952 zero32, .block 81951 zero32,
       .block 81953 zero32]).1 = [412, 412, 200, 412, 412, 200] := by decide

/-- A committed block request appended exactly its record. -/
theorem try_sign_block_ok_inv (db : SlashingProtectionData) (slot : Nat)
    (root : List Nat) (db2 : SlashingProtectionData)
    (h : try_sign_block db slot root = .ok db2) :
    db2 = { db with signed_blocks := db.signed_blocks ++ [⟨slot, root⟩] } := by
  cases hms : maxSlot db.signed_blocks with
  | none =>
      simp only [try_sign_block, hms] at h
      injection h with h
      exact h.symm
  | some m =>
      by_cases hle : slot ≤ m
      · simp only [try_sign_block, hms, if_pos hle] at h
        exact Except.noConfusion h
      · simp only [try_sign_block, hms, if_neg hle] at h
        injection h with h
        exact h.symm

/-- C4: the implementation resolves the spec's open replay choice by
rejecting: after a block or attestation commit, resubmitting the identical
request — the same slot or (source, target) pair with the same signing
root — is rejected as slashable with 412; no cached signature is returned. -/
theorem exact_replay_rejected (db db2 db3 : SlashingProtectionData)
    (slot src tgt : Nat) (root : List Nat) :
    (try_sign_block db slot root = .ok db2 →
       try_sign_block db2 slot root = .error "non-increasing slot") ∧
    (try_sign_attestation db src tgt root = .ok db3 →
       statusOf (try_sign_attestation db3 src tgt root) = 412) := by
  constructor
  · intro hok
    have happ := try_sign_block_ok_inv db slot root db2 hok
    have hblocks : db2.signed_blocks = db.signed_blocks ++ [⟨slot, root⟩] := by
      rw [happ]
    cases hms : maxSlot db2.signed_blocks with
    | none =>
        have hnil := (maxSlot_spec _).1 hms
        rw [hblocks] at hnil
        exact absurd hnil (by simp)
    | some m =>
        have hb : slot ≤ m := by
          have := ((maxSlot_spec _).2 m hms).1 ⟨slot, root⟩ (by rw [hblocks]; simp)
          exact this
        simp only [try_sign_block, hms, if_pos hb]
  · intro hok
    obtain ⟨hlt, -, -, -, happ⟩ := try_sign_attestation_ok_inv db src tgt root db3 hok
    have hatts : db3.signed_attestations = db.signed_attestations ++ [⟨src, tgt, root⟩] := by
      rw [happ]
    have hns : ¬ tgt ≤ src := Nat.not_le.mpr hlt
    cases hmt : maxTarget db3.signed_attestations with
    | none =>
        have hnil := (maxTarget_spec _).1 hmt
        rw [hatts] at hnil
        exact absurd hnil (by simp)
    | some mt =>
        have hb : tgt ≤ mt := by
          have := ((maxTarget_spec _).2 mt hmt).1 ⟨src, tgt, root⟩ (by rw [hatts]; simp)
          exact this
        simp only [statusOf, try_sign_attestation, if_neg hns, hmt, if_pos hb]

/-- C4 witness: replaying block slot 10 after its commit, and attestation
(10, 11) after its commit, both answer slashable rejections. -/
theorem exact_replay_rejected_witness :
    try_sign_block ⟨"k", [⟨10, []⟩], []⟩ 10 [] = .error "non-increasing slot" ∧
    statusOf (try_sign_attestation ⟨"k", [], [⟨10, 11, []⟩]⟩ 10 11 []) = 412 :=
  ⟨(exact_replay_rejected (SlashingProtectionData.empty "k") ⟨"k", [⟨10, []⟩], []⟩
      ⟨"k", [], []⟩ 10 0 0 []).1 rfl,
   (exact_replay_rejected (SlashingProtectionData.empty "k") ⟨"k", [], []⟩
      ⟨"k", [], [⟨10, 11, []⟩]⟩ 0 10 11 []).2 rfl⟩

set_option maxRecDepth 10000

/-- The fork context of the BLOCK_V2 BELLATRIX test request: previous version
128 0 0 112, current version 128 0 0 113, fork epoch 750, genesis validators
root of 32 bytes 42. -/
def bellatrixForkInfo : ForkInfo :=
  ⟨⟨[128, 0, 0, 112], [128, 0, 0, 113], 750⟩, List.replicate 32 42⟩

/-- The body root carried by the BLOCK_V2 BELLATRIX test request. -/
def bellatrixBodyRoot : List Nat :=
  [205, 124, 73, 150, 110, 190, 114, 177, 33, 78, 109, 71, 51, 173, 246, 191,
   6, 147, 92, 95, 188, 59, 58, 208, 142, 132, 227, 8, 84, 40, 184, 47]

/-- The expected BLOCK_V2 BELLATRIX signing root, hex 2ebfc2d70944cc2fbff6d6
7c6d9cbb043d7fbe0a660d248b6e666ce110af418a. -/
def bellatrixExpectedRoot : List Nat :=
  [46, 191, 194, 215, 9, 68, 204, 47, 191, 246, 214, 124, 109, 156, 187, 4,
   61, 127, 190, 10, 102, 13, 36, 139, 110, 102, 108, 225, 16, 175, 65, 138]

/-- C5: the server-computed signing root of the BLOCK_V2 BELLATRIX request at
slot 24000, proposer 0, zero parent and state roots equals the expected
constant, and the pipeline accepts a request carrying that root on a fresh
key with 200. -/
theorem block_v2_bellatrix_signing_root_correct :
    block_v2_signing_root bellatrixForkInfo 24000 0 zero32 zero32 bellatrixBodyRoot =
      bellatrixExpectedRoot ∧
    (secure_sign_block_v2 (SlashingProtectionData.empty "k")
      ⟨bellatrixForkInfo, 24000, 0, zero32, zero32, bellatrixBodyRoot,
        bellatrixExpectedRoot⟩).1 = 200 := by decide

/-- The RANDAO_REVEAL test fork context: both versions zero, fork epoch 0,
genesis validators root of 32 bytes 42. -/
def randaoForkInfo : ForkInfo :=
  ⟨⟨[0, 0, 0, 0], [0, 0, 0, 0], 0⟩, List.replicate 32 42⟩

/-- The expected RANDAO_REVEAL signing root, hex bf70dbbbc83299fb877334eaeaef
b32df44242c1bf078cdc1836dcc3282d4fbd. -/
def randaoExpectedRoot : List Nat :=
  [191, 112, 219, 187, 200, 50, 153, 251, 135, 115, 52, 234, 234, 239, 179, 45,
   244, 66, 66, 193, 191, 7, 140, 220, 24, 54, 220, 195, 40, 45, 79, 189]

/-- C6: the server-computed signing root of the RANDAO_REVEAL request at
epoch 0 under the zero fork equals the expected constant, and the pipeline
accepts a request carrying that root on a fresh key with 200. -/
theorem randao_reveal_signing_root_correct :
    randao_signing_root randaoForkInfo 0 = randaoExpectedRoot ∧
    (secure_sign_randao (SlashingProtectionData.empty "k")
      ⟨randaoForkInfo, 0, randaoExpectedRoot⟩).1 = 200 := by decide

/-- C7: gen_bls persists the returned public key with a slashing-protection
record whose block and attestation histories are empty, and the key appears
in the generated-key list. -/
theorem bls_key_gen_initializes_empty_record (st : EnclaveState) (pk : String) :
    readSlashDb (gen_bls st pk).1 pk = some (SlashingProtectionData.empty pk) ∧
    (readSlashDb (gen_bls st pk).1 pk).map SlashingProtectionData.signed_blocks = some [] ∧
    (readSlashDb (gen_bls st pk).1 pk).map SlashingProtectionData.signed_attestations = some [] ∧
    (gen_bls st pk).2 = pk ∧
    pk ∈ list_bls (gen_bls st pk).1 := by
  have hdb : readSlashDb (gen_bls st pk).1 pk = some (SlashingProtectionData.empty pk) := by
    simp [gen_bls, readSlashDb]
  refine ⟨hdb, ?_, ?_, rfl, by simp [gen_bls, list_bls]⟩
  · rw [hdb]; rfl
  · rw [hdb]; rfl

/-- C8: when every import step succeeds and the derived public key agrees
with the keystore pubkey when one is present, the response is status imported
with the derived BLS public key and the key is persisted; whenever the
response is status error, no state is persisted. -/
theorem bls_key_import_response (st : EnclaveState) (o : ImportSteps)
    (sp : Option SlashingProtectionData) (s : Nat) :
    (o.eth_secret.isSome = true → o.password.isSome = true → o.bls_secret = some s →
     (o.keystore_pubkey = none ∨ o.keystore_pubkey = some (o.derive_pub s)) →
       (bls_key_import_service st o sp).2 = ⟨"imported", o.derive_pub s⟩ ∧
       o.derive_pub s ∈ (bls_key_import_service st o sp).1.bls_keys) ∧
    ((bls_key_import_service st o sp).2.status = "error" →
       (bls_key_import_service st o sp).1 = st) := by
  constructor
  · intro h1 h2 h3 h4
    cases he : o.eth_secret with
    | none => rw [he] at h1; simp at h1
    | some e =>
        cases hp : o.password with
        | none => rw [hp] at h2; simp at h2
        | some pw =>
            rcases h4 with hk | hk
            · simp [bls_key_import_service, he, hp, h3, hk, importCommit]
            · simp [bls_key_import_service, he, hp, h3, hk, importCommit]
  · intro herr
    cases he : o.eth_secret with
    | none => simp [bls_key_import_service, he]
    | some e =>
        cases hp : o.password with
        | none => simp [bls_key_import_service, he, hp]
        | some pw =>
            cases hb : o.bls_secret with
            | none => simp [bls_key_import_service, he, hp, hb]
            | some s2 =>
                cases hk : o.keystore_pubkey with
                | none =>
                    simp [bls_key_import_service, he, hp, hb, hk, importCommit] at herr
                | some kp =>
                    by_cases heq : kp = o.derive_pub s2
                    · simp [bls_key_import_service, he, hp, hb, hk, heq,
                        importCommit] at herr
                    · simp [bls_key_import_service, he, hp, hb, hk, heq]

/-- C8 witness: a fully successful import on the empty state answers status
imported with the derived public key, which is persisted. -/
theorem bls_key_import_response_witness :
    (bls_key_import_service EnclaveState.empty
       ⟨some 1, some "pw", some 5, fun _ => "0xabc", none⟩ none).2 =
      ⟨"imported", "0xabc"⟩ ∧
    "0xabc" ∈ (bls_key_import_service EnclaveState.empty
       ⟨some 1, some "pw", some 5, fun _ => "0xabc", none⟩ none).1.bls_keys :=
  (bls_key_import_response EnclaveState.empty
      ⟨some 1, some "pw", some 5, fun _ => "0xabc", none⟩ none 5).1
    rfl rfl rfl (Or.inl rfl)

/-- A matched literal segment consumes exactly that path component. -/
theorem segsMatch_lit_inv (s : String) (ss : List Seg) (path caps : List String)
    (h : segsMatch (.lit s :: ss) path = some caps) :
    ∃ ps, path = s :: ps ∧ segsMatch ss ps = some caps := by
  cases path with
  | nil => exact absurd h (by simp [segsMatch])
  | cons p ps =>
      by_cases hp : p = s
      · subst hp
        exact ⟨ps, rfl, by simpa [segsMatch] using h⟩
      · rw [segsMatch, if_neg hp] at h
        exact Option.noConfusion h

/-- A matched parameter segment captures exactly the consumed component. -/
theorem segsMatch_param_inv (ss : List Seg) (path caps : List String)
    (h : segsMatch (.param :: ss) path = some caps) :
    ∃ p ps cs, path = p :: ps ∧ segsMatch ss ps = some cs ∧ caps = p :: cs := by
  cases path with
  | nil => exact absurd h (by simp [segsMatch])
  | cons p ps =>
      cases hcs : segsMatch ss ps with
      | none => rw [segsMatch, hcs] at h; exact Option.noConfusion h
      | some cs =>
          rw [segsMatch, hcs] at h
          injection h with h
          exact ⟨p, ps, cs, rfl, hcs, h.symm⟩

/-- An exhausted segment list matches only the empty path with no captures. -/
theorem segsMatch_nil_inv (path caps : List String)
    (h : segsMatch [] path = some caps) : path = [] ∧ caps = [] := by
  cases path with
  | nil =>
      rw [segsMatch] at h
      injection h with h
      exact ⟨rfl, h.symm⟩
  | cons p ps => exact absurd h (by simp [segsMatch])

/-- C9: the sign route is exactly POST api v1 eth2 sign with the public key
as the final path parameter and a raw-bytes body; upcheck is GET upcheck and
its handler always answers 200; key import is exactly POST eth v1 keystores
with a JSON body; and listing imported keys is GET on the same path. -/
theorem route_table_matches_spec :
    (∀ pk, matchRoute bls_sign_route .POST ["api", "v1", "eth2", "sign", pk] = some [pk]) ∧
    (∀ m path caps, matchRoute bls_sign_route m path = some caps →
       m = .POST ∧ ∃ pk, path = ["api", "v1", "eth2", "sign", pk] ∧ caps = [pk]) ∧
    bls_sign_route.body = .bytes ∧
    (∀ r, upcheck_handler r = 200) ∧
    matchRoute upcheck_route .GET ["upcheck"] = some [] ∧
    matchRoute bls_key_import_route .POST ["eth", "v1", "keystores"] = some [] ∧
    bls_key_import_route.body = .json ∧
    matchRoute list_imported_bls_keys_route .GET ["eth", "v1", "keystores"] = some [] ∧
    (∀ m path caps, matchRoute bls_key_import_route m path = some caps →
       m = .POST ∧ path = ["eth", "v1", "keystores"]) ∧
    (∀ m path caps, matchRoute list_imported_bls_keys_route m path = some caps →
       m = .GET ∧ path = ["eth", "v1", "keystores"]) := by
  refine ⟨fun pk => rfl, ?_, rfl, fun r => rfl, rfl, rfl, rfl, rfl, ?_, ?_⟩
  · intro m path caps h
    cases m with
    | GET => exact absurd h (by simp [matchRoute, bls_sign_route])
    | POST =>
        have g0 : segsMatch [Seg.lit "api", Seg.lit "v1", Seg.lit "eth2", Seg.lit "sign",
            Seg.param] path = some caps := h
        obtain ⟨p1, rfl, g1⟩ := segsMatch_lit_inv _ _ _ _ g0
        obtain ⟨p2, rfl, g2⟩ := segsMatch_lit_inv _ _ _ _ g1
        obtain ⟨p3, rfl, g3⟩ := segsMatch_lit_inv _ _ _ _ g2
        obtain ⟨p4, rfl, g4⟩ := segsMatch_lit_inv _ _ _ _ g3
        obtain ⟨pk, ps, cs, rfl, g5, rfl⟩ := segsMatch_param_inv _ _ _ g4
        obtain ⟨rfl, rfl⟩ := segsMatch_nil_inv _ _ g5
        exact ⟨rfl, pk, rfl, rfl⟩
  · intro m path caps h
    cases m with
    | GET => exact absurd h (by simp [matchRoute, bls_key_import_route])
    | POST =>
        have g0 : segsMatch [Seg.lit "eth", Seg.lit "v1", Seg.lit "keystores"] path =
            some caps := h
        obtain ⟨p1, rfl, g1⟩ := segsMatch_lit_inv _ _ _ _ g0
        obtain ⟨p2, rfl, g2⟩ := segsMatch_lit_inv _ _ _ _ g1
        obtain ⟨p3, rfl, g3⟩ := segsMatch_lit_inv _ _ _ _ g2
        obtain ⟨rfl, rfl⟩ := segsMatch_nil_inv _ _ g3
        exact ⟨rfl, rfl⟩
  · intro m path caps h
    cases m with
    | POST => exact absurd h (by simp [matchRoute, list_imported_bls_keys_route])
    | GET =>
        have g0 : segsMatch [Seg.lit "eth", Seg.lit "v1", Seg.lit "keystores"] path =
            some caps := h
        obtain ⟨p1, rfl, g1⟩ := segsMatch_lit_inv _ _ _ _ g0
        obtain ⟨p2, rfl, g2⟩ := segsMatch_lit_inv _ _ _ _ g1
        obtain ⟨p3, rfl, g3⟩ := segsMatch_lit_inv _ _ _ _ g2
        obtain ⟨rfl, rfl⟩ := segsMatch_nil_inv _ _ g3
        exact ⟨rfl, rfl⟩

/-- C9 witness: a POST to api v1 eth2 sign 0xdeadbeef matches the sign route
capturing exactly the public key. -/
theorem route_table_matches_spec_witness :
    Method.POST = Method.POST ∧
    ∃ pk, ["api", "v1", "eth2", "sign", "0xdeadbeef"] = ["api", "v1", "eth2", "sign", pk] ∧
          ["0xdeadbeef"] = [pk] :=
  route_table_matches_spec.2.1 .POST ["api", "v1", "eth2", "sign", "0xdeadbeef"]
    ["0xdeadbeef"] rfl

/-- C10: the list response body nests the entries under data, and every entry
carries its hex public key under the field validating_pubkey together with
the derivation_path and readonly fields of the keymanager list schema. -/
theorem list_response_schema (keys : List String) :
    (listResponseJson keys).getField "data" = some (.arr (keys.map listEntryJson)) ∧
    ∀ pk ∈ keys,
      (listEntryJson pk).getField "validating_pubkey" = some (.str pk) ∧
      (listEntryJson pk).getField "derivation_path" = some (.str "") ∧
      (listEntryJson pk).getField "readonly" = some (.bool true) := by
  refine ⟨rfl, ?_⟩
  intro pk _
  exact ⟨rfl, rfl, rfl⟩

/-- C10 witness: the single entry of the list body for the key 0xabc carries
it under validating_pubkey with the schema's other fields. -/
theorem list_response_schema_witness :
    (listEntryJson "0xabc").getField "validating_pubkey" = some (.str "0xabc") ∧
    (listEntryJson "0xabc").getField "derivation_path" = some (.str "") ∧
    (listEntryJson "0xabc").getField "readonly" = some (.bool true) :=
  (list_response_schema ["0xabc"]).2 "0xabc" (by simp)

end SecureSigner
